import Mathlib

/-!
Verification of the event-stream message model of the `apca` repository
(`src/api/v2/events.rs`): the `AccountUpdate` and `TradeUpdate` record
decoders derived by serde, the `TradeStatus` wire-name table, the scalar
codecs for optional timestamps and arbitrary-precision decimals, and the
`EventStream` binding of the stream tags `AccountUpdates`/`TradeUpdates`.
-/

set_option maxHeartbeats 1600000

namespace Apca

/-- A model of the JSON values delivered on the wire.  A number keeps its
lexical form (the decimal numeral as written), so that decoding it cannot
lose precision; an object is its ordered list of key/value pairs. -/
inductive Json where
  | null : Json
  | bool : Bool → Json
  | num : String → Json
  | str : String → Json
  | arr : List Json → Json
  | obj : List (String × Json) → Json

/-- Numeric value of a list of decimal digit characters. -/
def digitsVal (cs : List Char) : Nat :=
  cs.foldl (fun a c => 10 * a + (c.toNat - 48)) 0

/-- Parse a plain decimal numeral (optional sign, digits, optional point and
fraction digits) into an exact rational.  This is the grammar accepted by
`num_decimal::Num`'s string parser: no exponents, both the integer part and
a fraction part (when the point is present) must be nonempty digit runs, so
strings such as `NaN`, `Infinity`, `.5` or `5.` are rejected. -/
def parseDecimal (s : String) : Option Rat :=
  let cs := s.toList
  let sc : Int × List Char :=
    match cs with
    | '-' :: rest => (-1, rest)
    | '+' :: rest => (1, rest)
    | _ => (1, cs)
  let ip := sc.2.takeWhile (fun c => c != '.')
  let rest := sc.2.dropWhile (fun c => c != '.')
  if ip = [] ∨ ¬ ip.all Char.isDigit then none
  else
    match rest with
    | [] => some (mkRat (sc.1 * (digitsVal ip : Int)) 1)
    | '.' :: fp =>
      if fp = [] ∨ ¬ fp.all Char.isDigit then none
      else some (mkRat
        (sc.1 * ((digitsVal ip * 10 ^ fp.length + digitsVal fp : Nat) : Int))
        (10 ^ fp.length))
    | _ :: _ => none

/-- Is `y` a leap year in the proleptic Gregorian calendar? -/
def isLeapYear (y : Nat) : Bool :=
  (y % 4 == 0 && y % 100 != 0) || y % 400 == 0

/-- The number of days of month `m` (1-based) of year `y`. -/
def daysInMonth (y m : Nat) : Nat :=
  if m == 2 then (if isLeapYear y then 29 else 28)
  else if m == 4 || m == 6 || m == 9 || m == 11 then 30
  else 31

/-- Days from 1970-01-01 to the civil date `y-m-d` (standard civil-from-days
era computation over the proleptic Gregorian calendar). -/
def daysFromCivil (y m d : Nat) : Int :=
  let yi : Int := if m ≤ 2 then (y : Int) - 1 else (y : Int)
  let era : Int := yi / 400
  let yoe : Int := yi - era * 400
  let mp : Int := if 2 < m then (m : Int) - 3 else (m : Int) + 9
  let doy : Int := (153 * mp + 2) / 5 + (d : Int) - 1
  let doe : Int := yoe * 365 + yoe / 4 - yoe / 100 + doy
  era * 146097 + doe - 719468

/-- Parse an ISO-8601 / RFC 3339 instant `YYYY-MM-DDTHH:MM:SS[.frac](Z|±hh:mm)`
into the rational number of seconds since the Unix epoch.  Fractional seconds
are optional; the offset is mandatory (`Z` or a signed `hh:mm`); the calendar
fields are range-checked. -/
def parseTimestamp (s : String) : Option Rat :=
  match s.toList with
  | y1 :: y2 :: y3 :: y4 :: '-' :: m1 :: m2 :: '-' :: d1 :: d2 :: 'T' ::
    h1 :: h2 :: ':' :: n1 :: n2 :: ':' :: s1 :: s2 :: rest =>
    if [y1, y2, y3, y4, m1, m2, d1, d2, h1, h2, n1, n2, s1, s2].all Char.isDigit then
      let y := digitsVal [y1, y2, y3, y4]
      let mo := digitsVal [m1, m2]
      let da := digitsVal [d1, d2]
      let hh := digitsVal [h1, h2]
      let mi := digitsVal [n1, n2]
      let se := digitsVal [s1, s2]
      let fracRest : Option ((Nat × Nat) × List Char) :=
        match rest with
        | '.' :: r =>
          let ds := r.takeWhile Char.isDigit
          if ds = [] then none
          else some ((digitsVal ds, ds.length), r.dropWhile Char.isDigit)
        | _ => some ((0, 0), rest)
      match fracRest with
      | none => none
      | some (fr, r2) =>
        let offs : Option Int :=
          match r2 with
          | ['Z'] => some 0
          | [c, o1, o2, ':', o3, o4] =>
            if (c = '+' ∨ c = '-') ∧ [o1, o2, o3, o4].all Char.isDigit then
              let oh := digitsVal [o1, o2]
              let om := digitsVal [o3, o4]
              if oh ≤ 23 ∧ om ≤ 59 then
                some ((if c = '-' then (-1 : Int) else 1) * ((oh : Int) * 3600 + (om : Int) * 60))
              else none
            else none
          | _ => none
        match offs with
        | none => none
        | some off =>
          if 1 ≤ mo ∧ mo ≤ 12 ∧ 1 ≤ da ∧ da ≤ daysInMonth y mo ∧
             hh ≤ 23 ∧ mi ≤ 59 ∧ se ≤ 59 then
            let secs : Int := daysFromCivil y mo da * 86400 +
              (hh : Int) * 3600 + (mi : Int) * 60 + (se : Int) - off
            some (mkRat (secs * (10 ^ fr.2 : Nat) + (fr.1 : Int)) (10 ^ fr.2))
          else none
    else none
  | _ => none

/-- Wall-clock instants (`std::time::SystemTime` values) are embedded as the
rational number of seconds since the Unix epoch. -/
abbrev SystemTime := Rat

/-- Exact arbitrary-precision decimals (`num_decimal::Num`) are embedded as
rationals. -/
abbrev Num := Rat

/-- Modelled from the spec: `crate::api::time_util::optional_system_time` is
not among the supplied sources.  Per §4.1 of the spec it maps `null` and the
empty string to "absent", a well-formed ISO-8601 instant to that instant, and
rejects any other value with a decode error naming the offending value. -/
def optional_system_time (j : Json) : Except String (Option SystemTime) :=
  match j with
  | .null => .ok none
  | .str s =>
    if s = "" then .ok none
    else
      match parseTimestamp s with
      | some t => .ok (some t)
      | none => .error ("invalid timestamp `" ++ s ++ "`")
  | _ => .error "invalid type: expected a timestamp string or null"

/-- Modelled from the spec: `crate::api::v2::account::Id` is not among the
supplied sources.  The spec (§3) describes it as an opaque account identifier
compared byte-wise on its canonical textual form, so it is embedded as that
canonical textual form. -/
structure Id where
  canonical : String
deriving DecidableEq

/-- Decoder of an account id: the canonical textual form of the identifier. -/
def decodeId : Json → Except String Id
  | .str s => .ok ⟨s⟩
  | _ => .error "invalid type: expected an account id string"

/-- Decoder of the exact-decimal fields (`num_decimal::Num`): accepts the
value as a JSON string or a JSON number and parses its decimal numeral
exactly; anything else is a decode error. -/
def decodeNum (j : Json) : Except String Num :=
  match j with
  | .str s =>
    match parseDecimal s with
    | some q => .ok q
    | none => .error ("invalid decimal `" ++ s ++ "`")
  | .num s =>
    match parseDecimal s with
    | some q => .ok q
    | none => .error ("invalid decimal `" ++ s ++ "`")
  | _ => .error "invalid type: expected a decimal string or number"

/-- Decoder of a plain JSON string field. -/
def decodeString : Json → Except String String
  | .str s => .ok s
  | _ => .error "invalid type: expected a string"

/-- The status of a trade, as reported as part of a `TradeUpdate`
(`src/api/v2/events.rs`, `enum TradeStatus`). -/
inductive TradeStatus where
  | New
  | PartialFill
  | Filled
  | DoneForDay
  | Canceled
  | Expired
  | PendingCancel
  | Stopped
  | Rejected
  | Suspended
  | PendingNew
  | Calculated
deriving DecidableEq

/-- The wire name of each `TradeStatus` variant, as given by the
`#[serde(rename = ...)]` attributes in the source. -/
def wireName : TradeStatus → String
  | .New => "new"
  | .PartialFill => "partial_fill"
  | .Filled => "fill"
  | .DoneForDay => "done_for_day"
  | .Canceled => "canceled"
  | .Expired => "expired"
  | .PendingCancel => "pending_cancel"
  | .Stopped => "stopped"
  | .Rejected => "rejected"
  | .Suspended => "suspended"
  | .PendingNew => "pending_new"
  | .Calculated => "calculated"

/-- The table of `TradeStatus` wire names, in declaration order. -/
def tradeStatusWireNames : List String :=
  ["new", "partial_fill", "fill", "done_for_day", "canceled", "expired",
   "pending_cancel", "stopped", "rejected", "suspended", "pending_new", "calculated"]

/-- serde's error message for an unknown enum variant. -/
def unknownVariantMsg (s : String) : String :=
  "unknown variant `" ++ s ++ "`, expected one of `new`, `partial_fill`, " ++
  "`fill`, `done_for_day`, `canceled`, `expired`, `pending_cancel`, " ++
  "`stopped`, `rejected`, `suspended`, `pending_new`, `calculated`"

/-- Decode a `TradeStatus` from its wire string: the serde-derived
deserializer matches the string against the rename table and errors on any
other value, naming the offending value. -/
def decodeTradeStatusStr (s : String) : Except String TradeStatus :=
  if s = "new" then .ok .New
  else if s = "partial_fill" then .ok .PartialFill
  else if s = "fill" then .ok .Filled
  else if s = "done_for_day" then .ok .DoneForDay
  else if s = "canceled" then .ok .Canceled
  else if s = "expired" then .ok .Expired
  else if s = "pending_cancel" then .ok .PendingCancel
  else if s = "stopped" then .ok .Stopped
  else if s = "rejected" then .ok .Rejected
  else if s = "suspended" then .ok .Suspended
  else if s = "pending_new" then .ok .PendingNew
  else if s = "calculated" then .ok .Calculated
  else .error (unknownVariantMsg s)

/-- Decode a `TradeStatus` from a JSON value: only a string is accepted. -/
def decodeTradeStatus : Json → Except String TradeStatus
  | .str s => decodeTradeStatusStr s
  | _ => .error "invalid type: expected a trade status string"

/-- Modelled from the spec: `crate::api::v2::order::Order` is not among the
supplied sources.  The spec (§3) treats it as the full order record of an
external collaborator module, so it is embedded opaquely as the fields of
the JSON object that carries it. -/
structure Order where
  fields : List (String × Json)

/-- Decoder of the opaque order record: any JSON object is accepted. -/
def decodeOrder : Json → Except String Order
  | .obj fs => .ok ⟨fs⟩
  | _ => .error "invalid type: expected an order object"

/-- A representation of an account update received through the
"account_updates" stream (`struct AccountUpdate` in the source; the field
`withdrawable_cash` is decoded from the wire name `"cash_withdrawable"`). -/
structure AccountUpdate where
  id : Id
  created_at : Option SystemTime
  updated_at : Option SystemTime
  deleted_at : Option SystemTime
  status : String
  currency : String
  cash : Num
  withdrawable_cash : Num
deriving DecidableEq

/-- A representation of a trade update received through the "trade_updates"
stream (`struct TradeUpdate` in the source). -/
structure TradeUpdate where
  event : TradeStatus
  order : Order

/-- Fetch the value of field `k` from the fields of a JSON object, with
serde's error behaviour: a missing field and a duplicate field are decode
errors naming the field; unlisted keys are simply not consulted.  (The
serde-derived visitor walks the entries in stream order, so on a payload
with several independent errors it can surface a different one; on payloads
with at most one error the behaviours coincide.) -/
def getField (l : List (String × Json)) (k : String) : Except String Json :=
  match l.filter (fun p => p.1 == k) with
  | [] => .error ("missing field `" ++ k ++ "`")
  | [p] => .ok p.2
  | _ :: _ :: _ => .error ("duplicate field `" ++ k ++ "`")

/-- Remove every entry of field `k` from a JSON object's fields. -/
def eraseField (k : String) (l : List (String × Json)) : List (String × Json) :=
  l.filter (fun p => p.1 != k)

/-- The serde-derived decoder of `AccountUpdate`: each declared field is
required (the timestamp fields use a custom decoder and carry no `default`
attribute, so their absence is a decode error too), unknown fields are
ignored, and `withdrawable_cash` is read from the wire name
`"cash_withdrawable"`. -/
def decodeAccountUpdate (l : List (String × Json)) : Except String AccountUpdate := do
  let j1 ← getField l "id"
  let i ← decodeId j1
  let j2 ← getField l "created_at"
  let ca ← optional_system_time j2
  let j3 ← getField l "updated_at"
  let ua ← optional_system_time j3
  let j4 ← getField l "deleted_at"
  let da ← optional_system_time j4
  let j5 ← getField l "status"
  let st ← decodeString j5
  let j6 ← getField l "currency"
  let cu ← decodeString j6
  let j7 ← getField l "cash"
  let c ← decodeNum j7
  let j8 ← getField l "cash_withdrawable"
  let w ← decodeNum j8
  .ok ⟨i, ca, ua, da, st, cu, c, w⟩

/-- The serde-derived decoder of `TradeUpdate`: both fields are required,
unknown fields are ignored. -/
def decodeTradeUpdate (l : List (String × Json)) : Except String TradeUpdate := do
  let j1 ← getField l "event"
  let ev ← decodeTradeStatus j1
  let j2 ← getField l "order"
  let od ← decodeOrder j2
  .ok ⟨ev, od⟩

/-- The wire names of the `AccountUpdate` fields, in declaration order. -/
def accWireNames : List String :=
  ["id", "created_at", "updated_at", "deleted_at", "status", "currency",
   "cash", "cash_withdrawable"]

/-- The wire names of the `TradeUpdate` fields, in declaration order. -/
def tradeWireNames : List String := ["event", "order"]

/-- Modelled from the spec: `crate::events::StreamType` is not among the
supplied sources; per §4.3 of the spec it is the closed enumeration of wire
stream identifiers. -/
inductive StreamType where
  | AccountUpdates
  | TradeUpdates
deriving DecidableEq

/-- A type used for requesting a subscription to the "account_updates"
event stream (`enum AccountUpdates {}` in the source: no constructors). -/
inductive AccountUpdates : Type

/-- A type used for requesting a subscription to the "trade_updates"
event stream (`enum TradeUpdates {}` in the source: no constructors). -/
inductive TradeUpdates : Type

/-- Modelled from the spec: the `EventStream` trait of `crate::events` is
not among the supplied sources; per §4.3 it associates to a stream tag its
message type and its wire stream identifier. -/
class EventStream (T : Type) where
  Event : Type
  stream : StreamType

instance instEventStreamAccountUpdates : EventStream AccountUpdates :=
  ⟨AccountUpdate, StreamType.AccountUpdates⟩

instance instEventStreamTradeUpdates : EventStream TradeUpdates :=
  ⟨TradeUpdate, StreamType.TradeUpdates⟩

/-- The example `account_updates` frame payload of §6 of the spec. -/
def examplePayload : List (String × Json) :=
  [("id", .str "b0b7c...-...-..."),
   ("created_at", .str "2019-08-06T12:00:00Z"),
   ("updated_at", .str "2019-08-06T12:00:05Z"),
   ("deleted_at", .null),
   ("status", .str "ACTIVE"),
   ("currency", .str "USD"),
   ("cash", .str "1000.00"),
   ("cash_withdrawable", .str "750.50")]

/-- The record that the example payload of §6 decodes to. -/
def exampleRecord : AccountUpdate :=
  ⟨⟨"b0b7c...-...-..."⟩, some 1565092800, some 1565092805, none,
   "ACTIVE", "USD", 1000, mkRat 1501 2⟩

instance {ε α : Type} [DecidableEq ε] [DecidableEq α] : DecidableEq (Except ε α) :=
  fun a b =>
  match a, b with
  | .ok x, .ok y =>
    if h : x = y then isTrue (by rw [h]) else isFalse (fun he => h (by cases he; rfl))
  | .error e, .error f =>
    if h : e = f then isTrue (by rw [h]) else isFalse (fun he => h (by cases he; rfl))
  | .ok _, .error _ => isFalse (fun he => by cases he)
  | .error _, .ok _ => isFalse (fun he => by cases he)

/-- Successful bind in the `Except` monad splits into a successful first
step and a successful continuation. -/
theorem bindOk {α β : Type} {x : Except String α} {f : α → Except String β} {b : β} :
    x >>= f = .ok b ↔ ∃ a, x = .ok a ∧ f a = .ok b := by
  cases x <;> simp [Bind.bind, Except.bind]

@[simp] theorem ok_bind {α β : Type} {a : α} {f : α → Except String β} :
    (Except.ok a : Except String α) >>= f = f a := rfl

@[simp] theorem error_bind {α β : Type} {e : String} {f : α → Except String β} :
    (Except.error e : Except String α) >>= f = .error e := rfl

/-- `getField` only depends on the multiset of entries: permuting the object
leaves every field access unchanged. -/
theorem getField_perm {l l' : List (String × Json)} (h : l.Perm l') (k : String) :
    getField l k = getField l' k := by
  unfold getField
  have hp := h.filter (fun p => p.1 == k)
  rcases e : l.filter (fun p => p.1 == k) with _ | ⟨a, _ | ⟨b, t⟩⟩ <;>
    rw [e] at hp <;> rw [e]
  · rw [List.nil_perm.mp hp]
  · rw [← List.singleton_perm.mp hp]
  · have hlen := hp.length_eq
    rcases e2 : l'.filter (fun p => p.1 == k) with _ | ⟨a2, _ | ⟨b2, t2⟩⟩ <;>
      rw [e2] at hlen
    · simp at hlen
    · simp at hlen
    · rw [e2]

/-- Inserting an entry whose key is `name` anywhere in the object does not
change the access of any field `k ≠ name`. -/
theorem getField_insert {l1 l2 : List (String × Json)} {name : String} (v : Json)
    {k : String} (h : k ≠ name) :
    getField (l1 ++ (name, v) :: l2) k = getField (l1 ++ l2) k := by
  unfold getField
  have hb : (((name, v) : String × Json).1 == k) = false :=
    beq_eq_false_iff_ne.mpr (Ne.symm h)
  rw [List.filter_append, List.filter_cons_of_neg (by simp [hb]), ← List.filter_append]

/-- After erasing field `k`, accessing `k` is a missing-field error. -/
theorem getField_erase_self (l : List (String × Json)) (k : String) :
    getField (eraseField k l) k = .error ("missing field `" ++ k ++ "`") := by
  unfold getField eraseField
  have : (l.filter (fun p => p.1 != k)).filter (fun p => p.1 == k) = [] := by
    rw [List.filter_filter]
    apply List.filter_eq_nil_iff.mpr
    intro a _
    by_cases hak : a.1 = k <;> simp [hak]
  rw [this]

/-- Characterization of a successful `AccountUpdate` decode: every wire
field is present and its value decodes, and the record collects the decoded
values. -/
theorem decodeAcc_ok_iff {l : List (String × Json)} {r : AccountUpdate} :
    decodeAccountUpdate l = Except.ok r ↔
      ∃ j1, getField l "id" = .ok j1 ∧ ∃ i, decodeId j1 = .ok i ∧
      ∃ j2, getField l "created_at" = .ok j2 ∧ ∃ ca, optional_system_time j2 = .ok ca ∧
      ∃ j3, getField l "updated_at" = .ok j3 ∧ ∃ ua, optional_system_time j3 = .ok ua ∧
      ∃ j4, getField l "deleted_at" = .ok j4 ∧ ∃ da, optional_system_time j4 = .ok da ∧
      ∃ j5, getField l "status" = .ok j5 ∧ ∃ st, decodeString j5 = .ok st ∧
      ∃ j6, getField l "currency" = .ok j6 ∧ ∃ cu, decodeString j6 = .ok cu ∧
      ∃ j7, getField l "cash" = .ok j7 ∧ ∃ c, decodeNum j7 = .ok c ∧
      ∃ j8, getField l "cash_withdrawable" = .ok j8 ∧ ∃ w, decodeNum j8 = .ok w ∧
      AccountUpdate.mk i ca ua da st cu c w = r := by
  simp only [decodeAccountUpdate, bindOk, Except.ok.injEq]

/-- Characterization of a successful `TradeUpdate` decode. -/
theorem decodeTrade_ok_iff {l : List (String × Json)} {r : TradeUpdate} :
    decodeTradeUpdate l = Except.ok r ↔
      ∃ j1, getField l "event" = .ok j1 ∧ ∃ ev, decodeTradeStatus j1 = .ok ev ∧
      ∃ j2, getField l "order" = .ok j2 ∧ ∃ od, decodeOrder j2 = .ok od ∧
      TradeUpdate.mk ev od = r := by
  simp only [decodeTradeUpdate, bindOk, Except.ok.injEq]

/-- Erasing field `k` does not change the access of any field `k' ≠ k`. -/
theorem getField_erase_other {k k' : String} (h : k' ≠ k) (l : List (String × Json)) :
    getField (eraseField k l) k' = getField l k' := by
  unfold getField eraseField
  rw [List.filter_filter]
  have : ∀ a : String × Json, ((a.1 == k') && (a.1 != k)) = (a.1 == k') := by
    intro a
    by_cases hak : a.1 = k' <;> simp [hak, h]
  rw [List.filter_congr (fun a _ => this a)]

/-- The `AccountUpdate` decoder only consults the eight declared wire
fields: two objects agreeing on those accesses decode identically. -/
theorem decodeAcc_exten {l l' : List (String × Json)}
    (h : ∀ k, k ∈ accWireNames → getField l k = getField l' k) :
    decodeAccountUpdate l = decodeAccountUpdate l' := by
  simp only [decodeAccountUpdate]
  simp only [h "id" (by decide), h "created_at" (by decide),
    h "updated_at" (by decide), h "deleted_at" (by decide),
    h "status" (by decide), h "currency" (by decide),
    h "cash" (by decide), h "cash_withdrawable" (by decide)]

/-- The `TradeUpdate` decoder only consults the two declared wire fields. -/
theorem decodeTrade_exten {l l' : List (String × Json)}
    (h : ∀ k, k ∈ tradeWireNames → getField l k = getField l' k) :
    decodeTradeUpdate l = decodeTradeUpdate l' := by
  simp only [decodeTradeUpdate]
  simp only [h "event" (by decide), h "order" (by decide)]

/-- Removing any one of the eight wire fields from a payload that decodes
successfully turns the decode into a missing-field error naming that field. -/
theorem decodeAcc_erase {l : List (String × Json)} {r : AccountUpdate} {k : String}
    (hdec : decodeAccountUpdate l = Except.ok r) (hk : k ∈ accWireNames) :
    decodeAccountUpdate (eraseField k l) = .error ("missing field `" ++ k ++ "`") := by
  rw [decodeAcc_ok_iff] at hdec
  obtain ⟨j1, g1, i, d1, j2, g2, ca, d2, j3, g3, ua, d3, j4, g4, da, d4,
    j5, g5, st, d5, j6, g6, cu, d6, j7, g7, c, d7, j8, g8, w, d8, hr⟩ := hdec
  simp only [accWireNames, List.mem_cons, List.not_mem_nil, or_false] at hk
  rcases hk with rfl | rfl | rfl | rfl | rfl | rfl | rfl | rfl
  · simp only [decodeAccountUpdate, getField_erase_self, error_bind]
  · simp only [decodeAccountUpdate,
      getField_erase_other (by decide : ("id" : String) ≠ "created_at"),
      g1, ok_bind, d1, getField_erase_self, error_bind]
  · simp only [decodeAccountUpdate,
      getField_erase_other (by decide : ("id" : String) ≠ "updated_at"),
      getField_erase_other (by decide : ("created_at" : String) ≠ "updated_at"),
      g1, ok_bind, d1, g2, d2, getField_erase_self, error_bind]
  · simp only [decodeAccountUpdate,
      getField_erase_other (by decide : ("id" : String) ≠ "deleted_at"),
      getField_erase_other (by decide : ("created_at" : String) ≠ "deleted_at"),
      getField_erase_other (by decide : ("updated_at" : String) ≠ "deleted_at"),
      g1, ok_bind, d1, g2, d2, g3, d3, getField_erase_self, error_bind]
  · simp only [decodeAccountUpdate,
      getField_erase_other (by decide : ("id" : String) ≠ "status"),
      getField_erase_other (by decide : ("created_at" : String) ≠ "status"),
      getField_erase_other (by decide : ("updated_at" : String) ≠ "status"),
      getField_erase_other (by decide : ("deleted_at" : String) ≠ "status"),
      g1, ok_bind, d1, g2, d2, g3, d3, g4, d4, getField_erase_self, error_bind]
  · simp only [decodeAccountUpdate,
      getField_erase_other (by decide : ("id" : String) ≠ "currency"),
      getField_erase_other (by decide : ("created_at" : String) ≠ "currency"),
      getField_erase_other (by decide : ("updated_at" : String) ≠ "currency"),
      getField_erase_other (by decide : ("deleted_at" : String) ≠ "currency"),
      getField_erase_other (by decide : ("status" : String) ≠ "currency"),
      g1, ok_bind, d1, g2, d2, g3, d3, g4, d4, g5, d5, getField_erase_self, error_bind]
  · simp only [decodeAccountUpdate,
      getField_erase_other (by decide : ("id" : String) ≠ "cash"),
      getField_erase_other (by decide : ("created_at" : String) ≠ "cash"),
      getField_erase_other (by decide : ("updated_at" : String) ≠ "cash"),
      getField_erase_other (by decide : ("deleted_at" : String) ≠ "cash"),
      getField_erase_other (by decide : ("status" : String) ≠ "cash"),
      getField_erase_other (by decide : ("currency" : String) ≠ "cash"),
      g1, ok_bind, d1, g2, d2, g3, d3, g4, d4, g5, d5, g6, d6,
      getField_erase_self, error_bind]
  · simp only [decodeAccountUpdate,
      getField_erase_other (by decide : ("id" : String) ≠ "cash_withdrawable"),
      getField_erase_other (by decide : ("created_at" : String) ≠ "cash_withdrawable"),
      getField_erase_other (by decide : ("updated_at" : String) ≠ "cash_withdrawable"),
      getField_erase_other (by decide : ("deleted_at" : String) ≠ "cash_withdrawable"),
      getField_erase_other (by decide : ("status" : String) ≠ "cash_withdrawable"),
      getField_erase_other (by decide : ("currency" : String) ≠ "cash_withdrawable"),
      getField_erase_other (by decide : ("cash" : String) ≠ "cash_withdrawable"),
      g1, ok_bind, d1, g2, d2, g3, d3, g4, d4, g5, d5, g6, d6, g7, d7,
      getField_erase_self, error_bind]

/-- Removing either wire field of a `TradeUpdate` payload that decodes
successfully turns the decode into a missing-field error naming it. -/
theorem decodeTrade_erase {l : List (String × Json)} {r : TradeUpdate} {k : String}
    (hdec : decodeTradeUpdate l = Except.ok r) (hk : k ∈ tradeWireNames) :
    decodeTradeUpdate (eraseField k l) = .error ("missing field `" ++ k ++ "`") := by
  rw [decodeTrade_ok_iff] at hdec
  obtain ⟨j1, g1, ev, d1, j2, g2, od, d2, hr⟩ := hdec
  simp only [tradeWireNames, List.mem_cons, List.not_mem_nil, or_false] at hk
  rcases hk with rfl | rfl
  · simp only [decodeTradeUpdate, getField_erase_self, error_bind]
  · simp only [decodeTradeUpdate,
      getField_erase_other (by decide : ("event" : String) ≠ "order"),
      g1, ok_bind, d1, getField_erase_self, error_bind]

/-- C1: `TradeStatus` decoding round-trips the wire-name table: decoding the
JSON string that is a variant's wire name yields that variant, every wire
name is in the §3 table, and decoding any other JSON string returns a decode
error naming the offending value rather than any default variant. -/
theorem trade_status_round_trip :
    (∀ v : TradeStatus, decodeTradeStatus (Json.str (wireName v)) = .ok v) ∧
    (∀ v : TradeStatus, wireName v ∈ tradeStatusWireNames) ∧
    (∀ n ∈ tradeStatusWireNames, ∃ v, wireName v = n) ∧
    (∀ s : String, s ∉ tradeStatusWireNames →
      decodeTradeStatus (Json.str s) = .error (unknownVariantMsg s)) := by
  refine ⟨fun v => by cases v <;> rfl, fun v => by cases v <;> decide,
    fun n hn => ?_, fun s hs => ?_⟩
  · simp only [tradeStatusWireNames, List.mem_cons, List.not_mem_nil, or_false] at hn
    rcases hn with rfl | rfl | rfl | rfl | rfl | rfl | rfl | rfl | rfl | rfl | rfl | rfl
    exacts [⟨.New, rfl⟩, ⟨.PartialFill, rfl⟩, ⟨.Filled, rfl⟩, ⟨.DoneForDay, rfl⟩,
      ⟨.Canceled, rfl⟩, ⟨.Expired, rfl⟩, ⟨.PendingCancel, rfl⟩, ⟨.Stopped, rfl⟩,
      ⟨.Rejected, rfl⟩, ⟨.Suspended, rfl⟩, ⟨.PendingNew, rfl⟩, ⟨.Calculated, rfl⟩]
  simp only [tradeStatusWireNames, List.mem_cons, List.not_mem_nil, or_false,
    not_or] at hs
  obtain ⟨h1, h2, h3, h4, h5, h6, h7, h8, h9, h10, h11, h12⟩ := hs
  simp [decodeTradeStatus, decodeTradeStatusStr,
    h1, h2, h3, h4, h5, h6, h7, h8, h9, h10, h11, h12]

/-- Witness for C1 at the concrete unknown wire value "halted". -/
theorem trade_status_round_trip_witness :
    decodeTradeStatus (Json.str "halted") = .error (unknownVariantMsg "halted") :=
  trade_status_round_trip.2.2.2 "halted" (by decide)

/-- C2: the `EventStream` binding is exactly the tabulated one: the tag
`AccountUpdates` is bound to message type `AccountUpdate` and wire stream id
`StreamType.AccountUpdates`, and the tag `TradeUpdates` to `TradeUpdate` and
`StreamType.TradeUpdates`. -/
theorem event_stream_binding :
    @EventStream.stream AccountUpdates instEventStreamAccountUpdates =
      StreamType.AccountUpdates ∧
    @EventStream.Event AccountUpdates instEventStreamAccountUpdates = AccountUpdate ∧
    @EventStream.stream TradeUpdates instEventStreamTradeUpdates =
      StreamType.TradeUpdates ∧
    @EventStream.Event TradeUpdates instEventStreamTradeUpdates = TradeUpdate :=
  ⟨rfl, rfl, rfl, rfl⟩

/-- C9: the stream-tag types `AccountUpdates` and `TradeUpdates` are
uninhabited: no value of either type exists. -/
theorem stream_tags_uninhabited : IsEmpty AccountUpdates ∧ IsEmpty TradeUpdates :=
  ⟨⟨fun a => nomatch a⟩, ⟨fun t => nomatch t⟩⟩

/-- C6: the decimal decoder used for `cash`/`cash_withdrawable` accepts the
wire value as a JSON string or a JSON number and returns the exact textual
value for "0", "1000.00", "0.00000001" and "-1.5", with no rounding; it
rejects non-numeric strings and NaN/Infinity with a decode error. -/
theorem decimal_fidelity :
    (decodeNum (Json.str "0") = .ok 0) ∧
    (decodeNum (Json.str "1000.00") = .ok 1000) ∧
    (decodeNum (Json.str "0.00000001") = .ok (1 / 100000000)) ∧
    (decodeNum (Json.str "-1.5") = .ok (-(3 / 2))) ∧
    (decodeNum (Json.num "0") = .ok 0) ∧
    (decodeNum (Json.num "1000.00") = .ok 1000) ∧
    (decodeNum (Json.num "0.00000001") = .ok (1 / 100000000)) ∧
    (decodeNum (Json.num "-1.5") = .ok (-(3 / 2))) ∧
    (decodeNum (Json.str "NaN") = .error "invalid decimal `NaN`") ∧
    (decodeNum (Json.str "Infinity") = .error "invalid decimal `Infinity`") ∧
    (decodeNum (Json.str "-Infinity") = .error "invalid decimal `-Infinity`") ∧
    (decodeNum (Json.str "abc") = .error "invalid decimal `abc`") := by
  have e1 : ((1 : Rat) / 100000000) = mkRat 1 100000000 := by
    rw [Rat.mkRat_eq_div]; norm_num
  have e2 : (-(3 / 2) : Rat) = mkRat (-3) 2 := by
    rw [Rat.mkRat_eq_div]; push_cast; ring
  refine ⟨by decide, by decide, by rw [e1]; decide, by rw [e2]; decide,
    by decide, by decide, by rw [e1]; decide, by rw [e2]; decide,
    by decide, by decide, by decide, by decide⟩

/-- C8: decoding the example `account_updates` payload of §6 succeeds, with
status "ACTIVE", currency "USD", cash exactly 1000.00, withdrawable_cash
exactly 750.50 (= 1501/2), `deleted_at` absent, and `created_at`/`updated_at`
the instants 2019-08-06T12:00:00Z and 2019-08-06T12:00:05Z (as seconds since
the Unix epoch: 1565092800 and 1565092805). -/
theorem account_update_happy_path :
    decodeAccountUpdate examplePayload = .ok exampleRecord ∧
    exampleRecord.status = "ACTIVE" ∧
    exampleRecord.currency = "USD" ∧
    exampleRecord.cash = 1000 ∧
    exampleRecord.withdrawable_cash = 1501 / 2 ∧
    exampleRecord.deleted_at = none ∧
    exampleRecord.created_at = some 1565092800 ∧
    exampleRecord.updated_at = some 1565092805 ∧
    parseTimestamp "2019-08-06T12:00:00Z" = some 1565092800 ∧
    parseTimestamp "2019-08-06T12:00:05Z" = some 1565092805 := by
  refine ⟨by decide, rfl, rfl, by decide, ?_, rfl, rfl, rfl, by decide, by decide⟩
  show mkRat 1501 2 = 1501 / 2
  rw [Rat.mkRat_eq_div]; norm_num

/-- C3 (amended): for the three timestamp fields of `AccountUpdate`, a wire
value of `null` or the empty string decodes to the absent value, a
well-formed ISO-8601 instant string decodes to that instant, and any other
string is a decode error; but an entirely absent timestamp field is a
missing-field decode error, not the absent value, because the fields use a
custom decoder with no serde `default` and are therefore required. -/
theorem optional_timestamp_contract :
    (optional_system_time Json.null = .ok none) ∧
    (optional_system_time (Json.str "") = .ok none) ∧
    (∀ s t, parseTimestamp s = some t →
      optional_system_time (Json.str s) = .ok (some t)) ∧
    (∀ s, s ≠ "" → parseTimestamp s = none →
      optional_system_time (Json.str s) =
        .error ("invalid timestamp `" ++ s ++ "`")) ∧
    (∀ l r, decodeAccountUpdate l = Except.ok r →
      ∀ k ∈ (["created_at", "updated_at", "deleted_at"] : List String),
        decodeAccountUpdate (eraseField k l) =
          .error ("missing field `" ++ k ++ "`")) := by
  refine ⟨rfl, rfl, fun s t h => ?_, fun s h0 h => ?_, fun l r hdec k hk => ?_⟩
  · by_cases hse : s = ""
    · subst hse
      rw [show parseTimestamp "" = none from rfl] at h
      exact Option.noConfusion h
    · simp [optional_system_time, hse, h]
  · simp [optional_system_time, h0, h]
  · refine decodeAcc_erase hdec ?_
    simp only [List.mem_cons, List.not_mem_nil, or_false] at hk
    rcases hk with rfl | rfl | rfl <;> decide

/-- Witness for C3's amended statement at a concrete well-formed instant. -/
theorem optional_timestamp_contract_witness :
    optional_system_time (Json.str "2019-08-06T12:00:00Z") =
      .ok (some 1565092800) :=
  optional_timestamp_contract.2.2.1 "2019-08-06T12:00:00Z" 1565092800 (by decide)

/-- C3 counterexample: removing the `created_at` field entirely from the §6
payload makes decoding fail with a missing-field error, instead of decoding
to the absent value as the claim states for an absent field. -/
theorem optional_timestamp_absent_counterexample :
    decodeAccountUpdate (eraseField "created_at" examplePayload) =
      .error "missing field `created_at`" := by decide

/-- C4: removing any of the required fields `id`, `status`, `currency`,
`cash`, `cash_withdrawable` from a valid `AccountUpdate` payload, or `event`
or `order` from a valid `TradeUpdate` payload, yields a decode error naming
the missing field; in particular `cash` and `cash_withdrawable` are never
optional. -/
theorem missing_required_field :
    (∀ l r, decodeAccountUpdate l = Except.ok r →
      ∀ k ∈ (["id", "status", "currency", "cash", "cash_withdrawable"] :
          List String),
        decodeAccountUpdate (eraseField k l) =
          .error ("missing field `" ++ k ++ "`")) ∧
    (∀ l r, decodeTradeUpdate l = Except.ok r →
      ∀ k ∈ (["event", "order"] : List String),
        decodeTradeUpdate (eraseField k l) =
          .error ("missing field `" ++ k ++ "`")) := by
  constructor
  · intro l r hdec k hk
    refine decodeAcc_erase hdec ?_
    simp only [List.mem_cons, List.not_mem_nil, or_false] at hk
    rcases hk with rfl | rfl | rfl | rfl | rfl <;> decide
  · intro l r hdec k hk
    refine decodeTrade_erase hdec ?_
    simp only [List.mem_cons, List.not_mem_nil, or_false] at hk
    rcases hk with rfl | rfl <;> decide

/-- Witness for C4: removing `cash` from the §6 example payload. -/
theorem missing_required_field_witness :
    decodeAccountUpdate (eraseField "cash" examplePayload) =
      .error "missing field `cash`" :=
  missing_required_field.1 examplePayload exampleRecord (by decide) "cash" (by decide)

/-- C5: adding a field whose name is not among the declared wire names
anywhere inside a valid payload leaves decoding successful and the decoded
record unchanged (unknown fields are ignored, not rejected). -/
theorem unknown_fields_ignored :
    (∀ l1 l2 (name : String) (v : Json) r, name ∉ accWireNames →
      decodeAccountUpdate (l1 ++ l2) = Except.ok r →
      decodeAccountUpdate (l1 ++ (name, v) :: l2) = Except.ok r) ∧
    (∀ l1 l2 (name : String) (v : Json) r, name ∉ tradeWireNames →
      decodeTradeUpdate (l1 ++ l2) = Except.ok r →
      decodeTradeUpdate (l1 ++ (name, v) :: l2) = Except.ok r) := by
  constructor
  · intro l1 l2 name v r hname hdec
    rw [@decodeAcc_exten (l1 ++ (name, v) :: l2) (l1 ++ l2)
      (fun k hk => getField_insert v (fun he => hname (by rw [← he]; exact hk)))]
    exact hdec
  · intro l1 l2 name v r hname hdec
    rw [@decodeTrade_exten (l1 ++ (name, v) :: l2) (l1 ++ l2)
      (fun k hk => getField_insert v (fun he => hname (by rw [← he]; exact hk)))]
    exact hdec

/-- Witness for C5: inserting an unknown field `"note"` in the middle of the
§6 example payload leaves the decoded record unchanged. -/
theorem unknown_fields_ignored_witness :
    decodeAccountUpdate
      [("id", .str "b0b7c...-...-..."),
       ("created_at", .str "2019-08-06T12:00:00Z"),
       ("updated_at", .str "2019-08-06T12:00:05Z"),
       ("deleted_at", Json.null),
       ("note", Json.arr [Json.bool true]),
       ("status", .str "ACTIVE"),
       ("currency", .str "USD"),
       ("cash", .str "1000.00"),
       ("cash_withdrawable", .str "750.50")] = Except.ok exampleRecord :=
  unknown_fields_ignored.1
    [("id", .str "b0b7c...-...-..."),
     ("created_at", .str "2019-08-06T12:00:00Z"),
     ("updated_at", .str "2019-08-06T12:00:05Z"),
     ("deleted_at", Json.null)]
    [("status", .str "ACTIVE"),
     ("currency", .str "USD"),
     ("cash", .str "1000.00"),
     ("cash_withdrawable", .str "750.50")]
    "note" (Json.arr [Json.bool true]) exampleRecord (by decide) (by decide)

/-- C7: the record field `withdrawable_cash` is decoded from the wire field
named `cash_withdrawable`, and the decoder does not enforce
`withdrawable_cash ≤ cash`: every payload whose fields individually decode
and whose decoded `cash_withdrawable` exceeds the decoded `cash` still
decodes successfully, pairing each record field with its wire value;
presenting the value under the record's own field name `withdrawable_cash`
instead fails with a missing-field error for `cash_withdrawable`. -/
theorem withdrawable_cash_rename_unenforced :
    (∀ (jid j2 j3 j4 j5 j6 j7 j8 : Json) i ca ua da st cu (qc qw : Num),
      decodeId jid = .ok i →
      optional_system_time j2 = .ok ca →
      optional_system_time j3 = .ok ua →
      optional_system_time j4 = .ok da →
      decodeString j5 = .ok st →
      decodeString j6 = .ok cu →
      decodeNum j7 = .ok qc →
      decodeNum j8 = .ok qw →
      qc < qw →
      decodeAccountUpdate
        [("id", jid), ("created_at", j2), ("updated_at", j3),
         ("deleted_at", j4), ("status", j5), ("currency", j6),
         ("cash", j7), ("cash_withdrawable", j8)] =
        .ok ⟨i, ca, ua, da, st, cu, qc, qw⟩) ∧
    decodeAccountUpdate
      [("id", .str "b0b7c...-...-..."),
       ("created_at", .str "2019-08-06T12:00:00Z"),
       ("updated_at", .str "2019-08-06T12:00:05Z"),
       ("deleted_at", Json.null),
       ("status", .str "ACTIVE"),
       ("currency", .str "USD"),
       ("cash", .str "1000.00"),
       ("withdrawable_cash", .str "750.50")] =
      .error "missing field `cash_withdrawable`" := by
  constructor
  · intro jid j2 j3 j4 j5 j6 j7 j8 i ca ua da st cu qc qw d1 d2 d3 d4 d5 d6 d7 d8 hlt
    rw [decodeAcc_ok_iff]
    exact ⟨jid, rfl, i, d1, j2, rfl, ca, d2, j3, rfl, ua, d3, j4, rfl, da, d4,
      j5, rfl, st, d5, j6, rfl, cu, d6, j7, rfl, qc, d7, j8, rfl, qw, d8, rfl⟩
  · decide

/-- Witness for C7: a payload with cash 100 and cash_withdrawable 750.50
(which exceeds it) decodes successfully. -/
theorem withdrawable_cash_rename_unenforced_witness :
    decodeAccountUpdate
      [("id", .str "some-id"), ("created_at", Json.null),
       ("updated_at", Json.null), ("deleted_at", Json.null),
       ("status", .str "ACTIVE"), ("currency", .str "USD"),
       ("cash", .str "100"), ("cash_withdrawable", .str "750.50")] =
      .ok ⟨⟨"some-id"⟩, none, none, none, "ACTIVE", "USD", 100, mkRat 1501 2⟩ :=
  withdrawable_cash_rename_unenforced.1
    (.str "some-id") Json.null Json.null Json.null
    (.str "ACTIVE") (.str "USD") (.str "100") (.str "750.50")
    ⟨"some-id"⟩ none none none "ACTIVE" "USD" 100 (mkRat 1501 2)
    (by decide) (by decide) (by decide) (by decide) (by decide) (by decide)
    (by decide) (by decide) (by decide)

/-- C10: decoding is insensitive to the order of the keys of the JSON
object: a permutation of a successfully decoding payload decodes to the
same record, for both `AccountUpdate` and `TradeUpdate`. -/
theorem decode_perm_invariant :
    (∀ l l' r, l.Perm l' → decodeAccountUpdate l = Except.ok r →
      decodeAccountUpdate l' = Except.ok r) ∧
    (∀ l l' r, l.Perm l' → decodeTradeUpdate l = Except.ok r →
      decodeTradeUpdate l' = Except.ok r) := by
  constructor
  · intro l l' r hp hdec
    rw [← decodeAcc_exten (fun k _ => getField_perm hp k)]
    exact hdec
  · intro l l' r hp hdec
    rw [← decodeTrade_exten (fun k _ => getField_perm hp k)]
    exact hdec

/-- Witness for C10: the reversed §6 example payload decodes to the same
record as the original. -/
theorem decode_perm_invariant_witness :
    decodeAccountUpdate examplePayload.reverse = Except.ok exampleRecord :=
  decode_perm_invariant.1 examplePayload examplePayload.reverse exampleRecord
    (List.reverse_perm examplePayload).symm (by decide)

end Apca
